import Mathlib

/-!
Verification of the Spec Catalog & Retrieval Engine
(`src/core/SpecService.ts`, class `FileSystemSpecService`).

The engine is embedded shallowly: the mutable fields `specs`, `catalog`
and `specCache` become an explicit `ServiceState` record threaded through
every operation; node's filesystem and the spec scanner become explicit
oracles (`Fs`, a `List ScanResult`); a rejected promise becomes
`Except SpecServiceError`.  JavaScript string-keyed objects become
association lists with first-match lookup and insert-or-replace update,
which is exactly the enumeration-order behaviour the source relies on.
-/

namespace MO

/-- Error codes of `SpecServiceError` (SpecService.ts lines 24-37). -/
inductive ErrorCode where
  | INIT_ERROR
  | PERSIST_ERROR
  | LOAD_ERROR
  | SCAN_ERROR
  deriving Repr, DecidableEq

/-- `SpecServiceError`: message, code, optional underlying cause
(the cause is abstracted to its message string). -/
structure SpecServiceError where
  message : String
  code : ErrorCode
  cause : Option String
  deriving Repr, DecidableEq

/-- Cache sub-configuration (ISpecService.ts `SpecServiceConfig.cache`);
optional fields model possibly-absent JS object fields. -/
structure CacheConfig where
  maxSize : Option Nat
  ttl : Option Nat
  deriving Repr, DecidableEq

/-- `SpecServiceConfig` (ISpecService.ts lines 6-24). -/
structure SpecServiceConfig where
  basePath : String
  catalogDir : Option String
  dereferencedDir : Option String
  retryAttempts : Option Nat
  retryDelay : Option Nat
  cache : Option CacheConfig
  deriving Repr, DecidableEq

/-- The fully-resolved configuration the constructor stores in
`this.config` (SpecService.ts lines 54-64). -/
structure ResolvedConfig where
  basePath : String
  catalogDir : String
  dereferencedDir : String
  retryAttempts : Nat
  retryDelay : Nat
  cacheMaxSize : Nat
  cacheTtl : Nat
  deriving Repr, DecidableEq

/-- JavaScript `v || d` for an optional number: `0` and absence are falsy. -/
def jsOrNat (v : Option Nat) (d : Nat) : Nat :=
  match v with
  | some n => if n == 0 then d else n
  | none => d

/-- JavaScript `v || d` for an optional string: `""` and absence are falsy. -/
def jsOrStr (v : Option String) (d : String) : String :=
  match v with
  | some s => if s == "" then d else s
  | none => d

/-- The constructor's config-defaulting logic (SpecService.ts lines 54-64):
every `||`-defaulted field, with the literal defaults of the source. -/
def resolveConfig (c : SpecServiceConfig) : ResolvedConfig :=
  { basePath := c.basePath
    catalogDir := jsOrStr c.catalogDir "_catalog"
    dereferencedDir := jsOrStr c.dereferencedDir "_dereferenced"
    retryAttempts := jsOrNat c.retryAttempts 3
    retryDelay := jsOrNat c.retryDelay 1000
    cacheMaxSize := jsOrNat (c.cache.bind (fun cc => cc.maxSize)) 500
    cacheTtl := jsOrNat (c.cache.bind (fun cc => cc.ttl)) 3600000 }

/-- An OpenAPI operation object, restricted to the fields the engine reads. -/
structure Operation where
  operationId : Option String
  summary : Option String
  description : Option String
  tags : List String
  deriving Repr, DecidableEq

/-- A value stored under a key of a path item: a real operation object, the
`parameters` array, or a `$ref` string.  The source iterates all keys of a
path item and distinguishes these dynamically. -/
inductive PathItemValue where
  | op (o : Operation)
  | params
  | ref (s : String)
  deriving Repr, DecidableEq

/-- A path item: JS object from method-ish keys to values, as an ordered
association list. -/
abbrev PathItem := List (String × PathItemValue)

/-- A named component schema, restricted to the field the engine reads. -/
structure Schema where
  description : Option String
  deriving Repr, DecidableEq

/-- A fully-dereferenced OpenAPI document, restricted to what the engine
reads: `info.description`, `paths`, `components.schemas` (the latter is
optional, as in `spec.components?.schemas`). -/
structure Document where
  infoDescription : Option String
  paths : List (String × PathItem)
  schemas : Option (List (String × Schema))
  deriving Repr, DecidableEq

/-- One yielded element of `scanner.scan(folderPath)`
(interface `ISpecScanner`): `{filename, spec, specId, error}`. -/
structure ScanResult where
  filename : String
  spec : Document
  specId : String
  error : Option String
  deriving Repr, DecidableEq

/-- `SpecUri` (ISpecService.ts lines 30-37); the `type` union is kept as a
string as the source only ever writes the literal `"specification"`. -/
structure SpecUri where
  specId : String
  type : String
  identifier : String
  deriving Repr, DecidableEq

/-- `SpecOperationEntry` (ISpecService.ts lines 42-55). -/
structure SpecOperationEntry where
  path : String
  method : String
  title : Option String
  description : Option String
  group : Option String
  operationId : Option String
  deriving Repr, DecidableEq

/-- `SpecSchemaEntry` (ISpecService.ts lines 60-65). -/
structure SpecSchemaEntry where
  name : String
  description : Option String
  deriving Repr, DecidableEq

/-- `SpecCatalogEntry` (ISpecService.ts lines 70-79). -/
structure SpecCatalogEntry where
  uri : SpecUri
  description : Option String
  operations : List SpecOperationEntry
  schemas : List SpecSchemaEntry
  deriving Repr, DecidableEq

/-- `LoadOperationResult` (ISpecService.ts lines 98-109).  The `operation`
field is the raw path-item member the source puts there (which for
`findOperationByPathAndMethod` may dynamically be a non-operation value). -/
structure LoadOperationResult where
  path : String
  method : String
  operation : PathItemValue
  specId : String
  uri : String
  deriving Repr, DecidableEq

/-- `LoadSchemaResult` (ISpecService.ts lines 84-93). -/
structure LoadSchemaResult where
  name : String
  description : Option String
  schema : Schema
  uri : String
  deriving Repr, DecidableEq

/-- JS object read `m[k]`: first entry with the key. -/
def jsGet {α : Type} (m : List (String × α)) (k : String) : Option α :=
  (m.find? (fun p => p.1 == k)).map (fun p => p.2)

/-- JS object write `m[k] = v`: replace in place if the key exists
(keeping its position), else append.  Keys are unique in every list this
development builds, matching JS object semantics. -/
def jsSet {α : Type} : List (String × α) → String → α → List (String × α)
  | [], k, v => [(k, v)]
  | p :: ps, k, v => if p.1 == k then (k, v) :: ps else p :: jsSet ps k v

/-- One entry of the cache: key, value, insertion time (ms). -/
structure CacheEntry where
  key : String
  value : Document
  insertedAt : Nat
  deriving Repr, DecidableEq

/-- Modelled from the spec: the `SimpleCache` class lives in
`src/core/Cache.ts`, which is not among the provided sources; this model
follows spec section 4.1 (Bounded TTL Cache): a key-value store whose `get`
treats an entry as absent once `now - insertedAt > ttl`, and whose `set`
evicts the least-recently-inserted entry when inserting would exceed
`maxSize`.  Entries are kept oldest-first. -/
structure SimpleCache where
  maxSize : Nat
  ttl : Nat
  entries : List CacheEntry
  deriving Repr, DecidableEq

/-- Modelled from the spec: cache lookup; expired entries are misses. -/
def SimpleCache.get (c : SimpleCache) (now : Nat) (k : String) :
    Option Document :=
  match c.entries.find? (fun e => e.key == k) with
  | some e => if now - e.insertedAt > c.ttl then none else some e.value
  | none => none

/-- Modelled from the spec: cache insert with capacity-bound eviction of
the least-recently-inserted entries. -/
def SimpleCache.set (c : SimpleCache) (now : Nat) (k : String)
    (v : Document) : SimpleCache :=
  let es := (c.entries.filter (fun e => !(e.key == k))) ++ [⟨k, v, now⟩]
  { c with entries :=
      if es.length > c.maxSize then es.drop (es.length - c.maxSize) else es }

/-- Modelled from the spec: drop every entry. -/
def SimpleCache.clear (c : SimpleCache) : SimpleCache :=
  { c with entries := [] }

/-- The mutable state of a `FileSystemSpecService` instance:
`this.specs`, `this.catalog`, `this.specCache`. -/
structure ServiceState where
  specs : List (String × Document)
  catalog : List SpecCatalogEntry
  cache : SimpleCache
  deriving Repr, DecidableEq

/-- Outcome of reading one spec file from disk. -/
inductive FileRead where
  | notFound
  | failure (msg : String)
  | ok (d : Document)
  deriving Repr, DecidableEq

/-- Outcome of reading `catalog.json` from disk. -/
inductive CatalogRead where
  | notFound
  | failure (msg : String)
  | ok (c : List SpecCatalogEntry)
  deriving Repr, DecidableEq

/-- The filesystem oracle: the outcome node's `fs` gives each call the
service makes during one build.  `writeSpec s = none` / `writeCatalog =
none` mean the write succeeds; `some msg` means it rejects with `msg`. -/
structure Fs where
  mkdirOk : Bool
  readCatalog : CatalogRead
  readSpecFile : String → FileRead
  writeSpec : String → Option String
  writeCatalog : Option String

/-- `resetState` (SpecService.ts lines 101-106): empty the catalog and the
spec store and clear the cache. -/
def resetState (st : ServiceState) : ServiceState :=
  { st with catalog := [], specs := [], cache := st.cache.clear }

/-- `operation.operationId` read through a dynamic path-item member:
`undefined` (`none`) unless the value is a real operation object. -/
def opIdOf : PathItemValue → Option String
  | .op o => o.operationId
  | _ => none

/-- `operation.summary` read dynamically. -/
def summaryOf : PathItemValue → Option String
  | .op o => o.summary
  | _ => none

/-- `operation.description` read dynamically. -/
def descOf : PathItemValue → Option String
  | .op o => o.description
  | _ => none

/-- `operation.tags || []` read dynamically. -/
def tagsOf : PathItemValue → List String
  | .op o => o.tags
  | _ => []

/-- `operation.tags?.[0]` read dynamically. -/
def groupOf (v : PathItemValue) : Option String :=
  (tagsOf v).head?

/-- JS truthiness of a path-item member: objects and arrays are truthy, a
string is truthy iff nonempty. -/
def truthy : PathItemValue → Bool
  | .op _ => true
  | .params => true
  | .ref s => !(s == "")

/-- JS string interpolation of a possibly-`undefined` string. -/
def jsUndefString : Option String → String
  | some s => s
  | none => "undefined"

/-- Operation extraction of `scanAndSave` (SpecService.ts lines 171-186):
enumerate every path's keys, skipping the `parameters` and `$ref` keys. -/
def extractOperations (doc : Document) : List SpecOperationEntry :=
  doc.paths.flatMap (fun pi =>
    pi.2.filterMap (fun mv =>
      if mv.1 == "parameters" || mv.1 == "$ref" then none
      else
        some { path := pi.1, method := mv.1, title := summaryOf mv.2,
               description := descOf mv.2, group := groupOf mv.2,
               operationId := opIdOf mv.2 }))

/-- Schema extraction of `scanAndSave` (SpecService.ts lines 188-198). -/
def extractSchemas (doc : Document) : List SpecSchemaEntry :=
  match doc.schemas with
  | none => []
  | some ss => ss.map (fun ns => { name := ns.1, description := ns.2.description })

/-- The `SpecCatalogEntry` built for one successfully scanned document
(SpecService.ts lines 200-209). -/
def mkEntry (r : ScanResult) : SpecCatalogEntry :=
  { uri := { specId := r.specId, type := "specification",
             identifier := r.specId }
    description := r.spec.infoDescription
    operations := extractOperations r.spec
    schemas := extractSchemas r.spec }

/-- `loadSpec` (SpecService.ts lines 288-321): cache lookup first; on a
miss read the file, cache it and return it; `ENOENT` becomes a
`LOAD_ERROR` without a cause, any other read failure a `LOAD_ERROR`
carrying the cause.  The third component counts storage reads attempted
by this call. -/
def loadSpec (fs : Fs) (cache : SimpleCache) (now : Nat) (specId : String) :
    Except SpecServiceError Document × SimpleCache × Nat :=
  match cache.get now specId with
  | some d => (.ok d, cache, 0)
  | none =>
    match fs.readSpecFile specId with
    | .ok d => (.ok d, cache.set now specId d, 1)
    | .notFound =>
      (.error ⟨"Specification not found: " ++ specId, .LOAD_ERROR, none⟩,
       cache, 1)
    | .failure m =>
      (.error ⟨"Failed to load specification " ++ specId, .LOAD_ERROR,
               some m⟩, cache, 1)

/-- `saveSpec` (SpecService.ts lines 248-265): re-assert the directory,
write the file, then mutate `this.specs` and the cache; any failure is
wrapped as `PERSIST_ERROR` and leaves the state untouched. -/
def saveSpec (fs : Fs) (st : ServiceState) (now : Nat) (spec : Document)
    (specId : String) : Except SpecServiceError Unit × ServiceState :=
  if fs.mkdirOk then
    match fs.writeSpec specId with
    | some m =>
      (.error ⟨"Failed to persist specification " ++ specId,
               .PERSIST_ERROR, some m⟩, st)
    | none =>
      (.ok (), { st with specs := jsSet st.specs specId spec,
                         cache := st.cache.set now specId spec })
  else
    (.error ⟨"Failed to persist specification " ++ specId, .PERSIST_ERROR,
             some "Failed to create directory"⟩, st)

/-- The commit loop of `scanAndSave` (SpecService.ts lines 223-228):
persist every pending document via `saveSpec`, accumulating the new
catalog; the first failure aborts the loop with the failing error, keeping
the mutations already made. -/
def commitPending (fs : Fs) (now : Nat) :
    List (Document × SpecCatalogEntry) → ServiceState →
    List SpecCatalogEntry →
    Except SpecServiceError (List SpecCatalogEntry) × ServiceState
  | [], st, acc => (.ok acc, st)
  | pe :: rest, st, acc =>
    match saveSpec fs st now pe.1 pe.2.uri.specId with
    | (.ok _, st1) => commitPending fs now rest st1 (acc ++ [pe.2])
    | (.error e, st1) => (.error e, st1)

/-- `scanAndSave` (SpecService.ts lines 150-242): entries with `error` set
are skipped; extraction accumulates pending pairs; the commit phase
re-asserts directories, persists every pending document, writes the
catalog, and only then swaps `this.catalog`; any throw is wrapped as
`SCAN_ERROR`. -/
def scanAndSave (fs : Fs) (results : List ScanResult) (st : ServiceState)
    (now : Nat) : Except SpecServiceError Unit × ServiceState :=
  let pending :=
    (results.filter (fun r => r.error.isNone)).map (fun r => (r.spec, mkEntry r))
  if fs.mkdirOk then
    match commitPending fs now pending st [] with
    | (.error e, st1) =>
      (.error ⟨"Failed to scan and persist specifications", .SCAN_ERROR,
               some e.message⟩, st1)
    | (.ok tempCatalog, st1) =>
      match fs.writeCatalog with
      | some m =>
        (.error ⟨"Failed to scan and persist specifications", .SCAN_ERROR,
                 some m⟩, st1)
      | none => (.ok (), { st1 with catalog := tempCatalog })
  else
    (.error ⟨"Failed to scan and persist specifications", .SCAN_ERROR,
             some "Failed to create directory"⟩, st)

/-- `loadSpecCatalog` (SpecService.ts lines 275-286): `ENOENT` yields an
empty catalog; any other failure is rethrown raw. -/
def loadSpecCatalog (fs : Fs) : Except String (List SpecCatalogEntry) :=
  match fs.readCatalog with
  | .notFound => .ok []
  | .failure m => .error m
  | .ok c => .ok c

/-- The `Promise.all(this.catalog.map(spec => this.loadSpec(...)))` of
`loadExistingCatalog`, modelled sequentially in catalog order. -/
def loadSpecsOf (fs : Fs) (now : Nat) :
    List SpecCatalogEntry → SimpleCache →
    Except SpecServiceError (List Document) × SimpleCache
  | [], c => (.ok [], c)
  | e :: es, c =>
    match loadSpec fs c now e.uri.specId with
    | (.ok d, c1, _) =>
      match loadSpecsOf fs now es c1 with
      | (.ok ds, c2) => (.ok (d :: ds), c2)
      | (.error err, c2) => (.error err, c2)
    | (.error err, c1, _) => (.error err, c1)

/-- `loadExistingCatalog` (SpecService.ts lines 108-127): best-effort; on
any failure the state is reset and `false` returned; on success every
loaded document is written into `this.specs` and the cache. -/
def loadExistingCatalog (fs : Fs) (st : ServiceState) (now : Nat) :
    Bool × ServiceState :=
  match loadSpecCatalog fs with
  | .error _ => (false, resetState st)
  | .ok cat =>
    let st1 := { st with catalog := cat }
    match loadSpecsOf fs now cat st1.cache with
    | (.error _, c1) => (false, resetState { st1 with cache := c1 })
    | (.ok ds, c1) =>
      (true,
       (cat.zip ds).foldl
         (fun s pd =>
           { s with specs := jsSet s.specs pd.1.uri.specId pd.2,
                    cache := s.cache.set now pd.1.uri.specId pd.2 })
         { st1 with cache := c1 })

/-- `initialize` (SpecService.ts lines 129-148): ensure directories,
best-effort load of the existing catalog, then `scanAndSave`; on any throw
the state is reset and the error rethrown as `INIT_ERROR`. -/
def initializeService (fs : Fs) (results : List ScanResult)
    (st : ServiceState) (now : Nat) :
    Except SpecServiceError Unit × ServiceState :=
  if fs.mkdirOk then
    let st1 := (loadExistingCatalog fs st now).2
    match scanAndSave fs results st1 now with
    | (.ok _, st2) => (.ok (), st2)
    | (.error e, st2) =>
      (.error ⟨"Failed to initialize FileSystemSpecService", .INIT_ERROR,
               some e.message⟩, resetState st2)
  else
    (.error ⟨"Failed to initialize FileSystemSpecService", .INIT_ERROR,
             some "Failed to create directory"⟩, resetState st)

/-- Result of `refresh` (SpecService.ts lines 323-328): with a falsy
`folderPath` a plain `Error` (not a `SpecServiceError`) is thrown,
otherwise `initialize()` is re-run in full. -/
inductive RefreshResult where
  | notInitialized
  | ran (r : Except SpecServiceError Unit)

/-- `refresh` (SpecService.ts lines 323-328). -/
def refresh (folderPath : String) (fs : Fs) (results : List ScanResult)
    (st : ServiceState) (now : Nat) : RefreshResult × ServiceState :=
  if folderPath == "" then (.notInitialized, st)
  else
    match initializeService fs results st now with
    | (r, st1) => (.ran r, st1)

/-- `getApiCatalog` (SpecService.ts lines 244-246). -/
def getApiCatalog (st : ServiceState) : List SpecCatalogEntry :=
  st.catalog

/-- `findSchemaByName` (SpecService.ts lines 419-439): exact lookup in the
in-memory document's `components?.schemas`; `null` on any miss. -/
def findSchemaByName (st : ServiceState) (specId schemaName : String) :
    Option LoadSchemaResult :=
  match jsGet st.specs specId with
  | none => none
  | some spec =>
    match spec.schemas.bind (fun ss => jsGet ss schemaName) with
    | none => none
    | some schema =>
      some { name := schemaName, description := schema.description,
             schema := schema,
             uri := "apis://" ++ specId ++ "/schemas/" ++ schemaName }

/-- `findOperationById` (SpecService.ts lines 441-465): first member of
any path item (in document enumeration order, no pseudo-key skipping)
whose dynamically-read `operationId` equals the argument. -/
def findOperationById (st : ServiceState) (specId operationId : String) :
    Option LoadOperationResult :=
  match jsGet st.specs specId with
  | none => none
  | some spec =>
    (spec.paths.flatMap (fun pi => pi.2.map (fun mv => (pi.1, mv.1, mv.2)))).findSome?
      (fun pmv =>
        if opIdOf pmv.2.2 == some operationId then
          some { path := pmv.1, method := pmv.2.1, operation := pmv.2.2,
                 specId := specId,
                 uri := "apis://" ++ specId ++ "/operations/" ++ operationId }
        else none)

/-- The `spec.paths[path]` / `pathItem[method]` lookup chain that
`findOperationByPathAndMethod` performs, before its truthiness check. -/
def lookupPathMethod (st : ServiceState) (specId pathStr method : String) :
    Option PathItemValue :=
  (jsGet st.specs specId).bind (fun spec =>
    (jsGet spec.paths pathStr).bind (fun item => jsGet item method))

/-- `findOperationByPathAndMethod` (SpecService.ts lines 467-491): exact
string lookups on `paths[path]` and `pathItem[method]`, `null` on any miss
or falsy member; the `uri` interpolates the member's `operationId`. -/
def findOperationByPathAndMethod (st : ServiceState)
    (specId pathStr method : String) : Option LoadOperationResult :=
  match jsGet st.specs specId with
  | none => none
  | some spec =>
    match jsGet spec.paths pathStr with
    | none => none
    | some item =>
      match jsGet item method with
      | none => none
      | some v =>
        if truthy v then
          some { path := pathStr, method := method, operation := v,
                 specId := specId,
                 uri := "apis://" ++ specId ++ "/operations/"
                        ++ jsUndefString (opIdOf v) }
        else none

/-- Is `needle` a leading segment of `hay`? -/
def listLeadEq : List Char → List Char → Bool
  | [], _ => true
  | _ :: _, [] => false
  | a :: as, b :: bs => a == b && listLeadEq as bs

/-- Substring containment on character lists
(JS `hay.includes(needle)`). -/
def listContainsSub (hay needle : List Char) : Bool :=
  match hay with
  | [] => needle.isEmpty
  | _ :: tl => listLeadEq needle hay || listContainsSub tl needle

/-- JS `hay.includes(needle)` on strings. -/
def strContains (hay needle : String) : Bool :=
  listContainsSub hay.toList needle.toList

/-- JS `toLowerCase()` restricted to the ASCII range (which is all the
source compares): lower every character of the string. -/
def jsToLower (s : String) : String :=
  ⟨s.data.map Char.toLower⟩

/-- The search corpus of one path-item member (SpecService.ts lines
358-367): `[operationId, summary, description, ...tags].filter(Boolean)
.join(" ").toLowerCase()` — absent and empty fields dropped, the rest
joined with single spaces, then case-folded. -/
def corpusOf (v : PathItemValue) : String :=
  (String.intercalate " "
    (((opIdOf v :: summaryOf v :: descOf v :: (tagsOf v).map some).filterMap
        id).filter (fun s => !(s == "")))) |> jsToLower

/-- The scoping of both search endpoints (SpecService.ts lines 334-342 and
389-397): one catalog entry found by specId, or the whole catalog. -/
def targetSpecs (sid : Option String) (catalog : List SpecCatalogEntry) :
    List SpecCatalogEntry :=
  match sid with
  | some s =>
    match catalog.find? (fun e => e.uri.specId == s) with
    | some e => [e]
    | none => []
  | none => catalog

/-- The `LoadOperationResult` record `searchOperations` pushes for a
match (SpecService.ts lines 370-376). -/
def mkOpResult (sid p m : String) (v : PathItemValue) :
    LoadOperationResult :=
  { path := p, method := m, operation := v, specId := sid,
    uri := "apis://" ++ sid ++ "/operations/" ++ jsUndefString (opIdOf v) }

/-- `searchOperations` (SpecService.ts lines 330-383): for each in-scope
catalog entry, walk the in-memory document's paths and methods (skipping
the `parameters`/`$ref` keys and falsy members) and keep the operations
whose corpus contains the case-folded query. -/
def searchOperations (q : String) (sid : Option String)
    (st : ServiceState) : List LoadOperationResult :=
  (targetSpecs sid st.catalog).flatMap (fun entry =>
    match jsGet st.specs entry.uri.specId with
    | none => []
    | some doc =>
      doc.paths.flatMap (fun pi =>
        pi.2.flatMap (fun mv =>
          if mv.1 == "parameters" || mv.1 == "$ref" then []
          else if !(truthy mv.2) then []
          else if strContains (corpusOf mv.2) (jsToLower q) then
            [mkOpResult entry.uri.specId pi.1 mv.1 mv.2]
          else [])))

/-- The in-scope operation enumeration of one document, in the document's
own path/method order, excluding pseudo-keys and falsy members: the
population `searchOperations` filters. -/
def enumeratedOps (doc : Document) : List (String × String × PathItemValue) :=
  doc.paths.flatMap (fun pi =>
    pi.2.filterMap (fun mv =>
      if mv.1 == "parameters" || mv.1 == "$ref" then none
      else if !(truthy mv.2) then none
      else some (pi.1, mv.1, mv.2)))

/-- `searchOperations` as the spec states it: per in-scope document,
filter the document-order operation enumeration by case-folded substring
containment of the corpus, and concatenate per catalog order. -/
def specSearchOperations (q : String) (sid : Option String)
    (st : ServiceState) : List LoadOperationResult :=
  (targetSpecs sid st.catalog).flatMap (fun entry =>
    match jsGet st.specs entry.uri.specId with
    | none => []
    | some doc =>
      ((enumeratedOps doc).filter
          (fun pmv => strContains (corpusOf pmv.2.2) (jsToLower q))).map
        (fun pmv => mkOpResult entry.uri.specId pmv.1 pmv.2.1 pmv.2.2))

/-- The corpus as claim C5 words it: the plain concatenation (no
separator) of `operationId`, `summary`, `description` and the tags,
omitting missing fields. -/
def claimConcatCorpus (v : PathItemValue) : String :=
  String.join
    ((opIdOf v :: summaryOf v :: descOf v :: (tagsOf v).map some).filterMap id)

/-- A schema-search candidate: a `SpecSchemaEntry` spread together with
the originating `specId` (SpecService.ts lines 399-407). -/
structure SchemaCandidate where
  name : String
  description : Option String
  specId : String
  deriving Repr, DecidableEq

/-- The candidate list `searchSchemas` builds over its scope
(SpecService.ts lines 389-407). -/
def schemaCandidates (sid : Option String) (st : ServiceState) :
    List SchemaCandidate :=
  (targetSpecs sid st.catalog).flatMap (fun entry =>
    entry.schemas.map (fun s =>
      { name := s.name, description := s.description,
        specId := entry.uri.specId }))

/-- Levenshtein edit distance on character lists, via a structurally
decreasing fuel argument (each step consumes at least one character of
one of the lists, so `|xs| + |ys|` fuel always suffices). -/
def editDistFuel : Nat → List Char → List Char → Nat
  | 0, xs, ys => xs.length + ys.length
  | _ + 1, [], ys => ys.length
  | _ + 1, xs, [] => xs.length
  | fuel + 1, x :: xs, y :: ys =>
    if x == y then editDistFuel fuel xs ys
    else 1 + min (editDistFuel fuel xs ys)
          (min (editDistFuel fuel (x :: xs) ys)
            (editDistFuel fuel xs (y :: ys)))

/-- Levenshtein edit distance on character lists. -/
def editDist (xs ys : List Char) : Nat :=
  editDistFuel (xs.length + ys.length) xs ys

/-- A similarity score as an unreduced fraction `num/den` with `den ≥ 1`
by construction; compared by cross-multiplication. -/
structure FuzzyScore where
  num : Nat
  den : Nat
  deriving Repr, DecidableEq

/-- `a ≤ b` on fraction scores, by cross-multiplication. -/
def scoreLe (a b : FuzzyScore) : Prop :=
  a.num * b.den ≤ b.num * a.den

/-- `a < b` on fraction scores, by cross-multiplication. -/
def scoreLt (a b : FuzzyScore) : Prop :=
  a.num * b.den < b.num * a.den

instance (a b : FuzzyScore) : Decidable (scoreLe a b) :=
  inferInstanceAs (Decidable (_ ≤ _))

instance (a b : FuzzyScore) : Decidable (scoreLt a b) :=
  inferInstanceAs (Decidable (_ < _))

/-- Modelled from the spec: the fuzzy matcher `searchSchemas` delegates to
(the Fuse.js library, whose code is not part of this repository) is
modelled per spec section 4.4 as case-folded normalized edit-distance
similarity: `1 - dist/maxLen`, kept as the fraction
`(maxLen - dist)/maxLen`. -/
def similarity (q s : String) : FuzzyScore :=
  let d := editDist (jsToLower q).toList (jsToLower s).toList
  let len := max 1 (max q.length s.length)
  ⟨len - d, len⟩

/-- Modelled from the spec: a candidate's score is the best similarity of
the query against its `name` and `description` fields (the two configured
search keys); an absent description scores zero. -/
def schemaScore (q : String) (c : SchemaCandidate) : FuzzyScore :=
  let n := similarity q c.name
  match c.description with
  | some ds => let d := similarity q ds; if scoreLt n d then d else n
  | none => n

/-- Modelled from the spec: the fixed similarity threshold — one half — a
candidate's score must reach to be returned (`1/2 ≤ num/den`). -/
def schemaThresholdLe (s : FuzzyScore) : Prop :=
  s.den ≤ 2 * s.num

instance (s : FuzzyScore) : Decidable (schemaThresholdLe s) :=
  inferInstanceAs (Decidable (_ ≤ _))

/-- Insert a candidate into a best-score-first list, keeping it sorted. -/
def insertRanked (f : SchemaCandidate → FuzzyScore) (c : SchemaCandidate) :
    List SchemaCandidate → List SchemaCandidate
  | [] => [c]
  | d :: ds =>
    if scoreLt (f d) (f c) then c :: d :: ds else d :: insertRanked f c ds

/-- Sort candidates best-score-first by insertion. -/
def rankSort (f : SchemaCandidate → FuzzyScore) :
    List SchemaCandidate → List SchemaCandidate
  | [] => []
  | c :: cs => insertRanked f c (rankSort f cs)

/-- `searchSchemas` (SpecService.ts lines 385-417): candidates over the
same scope as `searchOperations`, then the threshold-gated fuzzy ranking
(modelled from the spec, see `similarity`): keep candidates scoring at or
above the threshold, ordered best-match-first. -/
def searchSchemas (q : String) (sid : Option String) (st : ServiceState) :
    List SchemaCandidate :=
  rankSort (schemaScore q)
    ((schemaCandidates sid st).filter
      (fun c => schemaThresholdLe (schemaScore q c)))

/-! ### Concrete fixtures used by witnesses and counterexamples -/

/-- An empty cache with the default capacity and TTL. -/
def emptyCache : SimpleCache := ⟨500, 3600000, []⟩

/-- The state of a freshly constructed service. -/
def emptyState : ServiceState := ⟨[], [], emptyCache⟩

/-- A filesystem oracle on which every operation succeeds and nothing is
persisted yet. -/
def allOkFs : Fs :=
  { mkdirOk := true, readCatalog := .notFound,
    readSpecFile := fun _ => .notFound, writeSpec := fun _ => none,
    writeCatalog := none }

/-- `createPet`, an operation of the pet-store example document. -/
def petCreateOperation : Operation :=
  { operationId := some "createPet", summary := some "Create a pet",
    description := none, tags := ["pets"] }

/-- `listPets`, an operation of the pet-store example document. -/
def petListOperation : Operation :=
  { operationId := some "listPets", summary := none, description := none,
    tags := ["pets"] }

/-- The pet-store example document. -/
def petDoc : Document :=
  { infoDescription := some "Pet store",
    paths := [("/pets", [("get", .op petListOperation),
                         ("post", .op petCreateOperation)])],
    schemas := some [("Pet", { description := some "A pet" })] }

/-- A successful scan of the pet-store document. -/
def petScan : ScanResult :=
  { filename := "pets.json", spec := petDoc, specId := "petstore",
    error := none }

/-- The state after one successful build over the pet-store scan. -/
def petState : ServiceState :=
  (scanAndSave allOkFs [petScan] emptyState 0).2

/-- A document present only in the previously persisted catalog. -/
def prevDoc : Document :=
  { infoDescription := some "Old spec", paths := [], schemas := none }

/-- The scan the previously persisted catalog entry was built from. -/
def prevScan : ScanResult :=
  { filename := "prev.json", spec := prevDoc, specId := "prev",
    error := none }

/-- A filesystem whose persisted catalog already knows `prev`, while the
current scan does not yield it. -/
def stalePrevFs : Fs :=
  { mkdirOk := true, readCatalog := .ok [mkEntry prevScan],
    readSpecFile := fun id => if id == "prev" then .ok prevDoc else .notFound,
    writeSpec := fun _ => none, writeCatalog := none }

/-- A filesystem on which only the catalog write fails. -/
def catalogWriteFailFs : Fs :=
  { allOkFs with writeCatalog := some "disk full" }

/-- A scan entry with `error` set. -/
def badScan : ScanResult :=
  { filename := "broken.yaml", spec := prevDoc, specId := "broken",
    error := some "parse error" }

/-- The `listOrders` operation of the third example document. -/
def listOrdersOperation : Operation :=
  { operationId := some "listOrders", summary := none,
    description := none, tags := [] }

/-- A third successful scan entry. -/
def thirdDoc : Document :=
  { infoDescription := none,
    paths := [("/orders", [("get", .op listOrdersOperation)])],
    schemas := none }

/-- A third successful scan. -/
def thirdScan : ScanResult :=
  { filename := "orders.json", spec := thirdDoc, specId := "orders",
    error := none }

/-- A catalog entry carrying the `User` and `Order` schemas. -/
def userOrderEntry : SpecCatalogEntry :=
  { uri := { specId := "s", type := "specification", identifier := "s" },
    description := none, operations := [],
    schemas := [{ name := "User", description := none },
                { name := "Order", description := none }] }

/-- A state whose single catalog entry carries the `User` and `Order`
schemas. -/
def userOrderState : ServiceState :=
  { specs := [], catalog := [userOrderEntry], cache := emptyCache }

/-- An operation whose corpus fields are the two strings `"a"` and `"b"`:
its space-joined corpus is `"a b"` while the claim's plain concatenation
is `"ab"`. -/
def abOperation : Operation :=
  { operationId := some "a", summary := some "b", description := none,
    tags := [] }

/-- The document holding `abOperation`. -/
def abDoc : Document :=
  { infoDescription := none,
    paths := [("/x", [("get", .op abOperation)])], schemas := none }

/-- A scan of `abDoc` under specId `"s"`. -/
def abScan : ScanResult :=
  { filename := "ab.json", spec := abDoc, specId := "s", error := none }

/-- The state after one successful build over `abScan`. -/
def abState : ServiceState :=
  (scanAndSave allOkFs [abScan] emptyState 0).2

/-- The error payload, if any, of an `Except` result. -/
def errCode {α : Type} : Except SpecServiceError α → Option ErrorCode
  | .error e => some e.code
  | .ok _ => none

/-- Is the result an error? -/
def isErr {α : Type} : Except SpecServiceError α → Bool
  | .error _ => true
  | .ok _ => false

/-! ### Helper lemmas about the JS object model -/

theorem jsGet_jsSet {α : Type} (m : List (String × α)) (k k' : String)
    (v : α) :
    jsGet (jsSet m k v) k' = if k' = k then some v else jsGet m k' := by
  induction m with
  | nil =>
    by_cases hk : k' = k
    · simp [jsGet, jsSet, hk]
    · have hb : (k == k') = false :=
        beq_eq_false_iff_ne.mpr (fun hh => hk hh.symm)
      simp [jsGet, jsSet, List.find?_cons, hb, hk]
  | cons p ps ih =>
    by_cases hk : k' = k
    · subst hk
      by_cases hp : p.1 = k'
      · simp [jsGet, jsSet, hp, List.find?_cons]
      · have hb : (p.1 == k') = false := beq_eq_false_iff_ne.mpr hp
        simpa [jsGet, jsSet, hb, List.find?_cons] using ih
    · by_cases hp : p.1 = k
      · have hb1 : (p.1 == k) = true := by simp [hp]
        have hb2 : (k == k') = false :=
          beq_eq_false_iff_ne.mpr (fun hh => hk hh.symm)
        have hb3 : (p.1 == k') = false := by rw [hp]; exact hb2
        simp [jsGet, jsSet, hb1, hb2, hb3, List.find?_cons, hk]
      · have hb1 : (p.1 == k) = false := beq_eq_false_iff_ne.mpr hp
        by_cases hpk : p.1 = k'
        · simp [jsGet, jsSet, hb1, hpk, List.find?_cons, hk]
        · have hb2 : (p.1 == k') = false := beq_eq_false_iff_ne.mpr hpk
          simpa [jsGet, jsSet, hb1, hb2, List.find?_cons, hk] using ih

theorem jsGet_jsSet_self {α : Type} (m : List (String × α)) (k : String)
    (v : α) : jsGet (jsSet m k v) k = some v := by
  simp [jsGet_jsSet]

theorem jsGet_isSome_jsSet {α : Type} (m : List (String × α))
    (k k' : String) (v : α) (h : (jsGet m k').isSome) :
    (jsGet (jsSet m k v) k').isSome := by
  rw [jsGet_jsSet]
  by_cases hk : k' = k
  · simp [hk]
  · simpa [hk] using h

/-! ### C10: constructor defaulting -/

/-- C10: for every configuration in which `cache.maxSize`, `cache.ttl`,
`retryAttempts` or `retryDelay` is 0, or `catalogDir` or `dereferencedDir`
is the empty string, the constructed service substitutes the documented
default (500, 3600000 ms, 3, 1000 ms, "_catalog", "_dereferenced"); a zero
or empty value for these parameters cannot be configured. -/
theorem c10_constructor_defaults :
    (∀ c : SpecServiceConfig,
      (c.catalogDir = some "" → (resolveConfig c).catalogDir = "_catalog") ∧
      (c.dereferencedDir = some "" →
        (resolveConfig c).dereferencedDir = "_dereferenced") ∧
      (c.retryAttempts = some 0 → (resolveConfig c).retryAttempts = 3) ∧
      (c.retryDelay = some 0 → (resolveConfig c).retryDelay = 1000) ∧
      (c.cache.bind (fun cc => cc.maxSize) = some 0 →
        (resolveConfig c).cacheMaxSize = 500) ∧
      (c.cache.bind (fun cc => cc.ttl) = some 0 →
        (resolveConfig c).cacheTtl = 3600000)) ∧
    (∀ c : SpecServiceConfig,
      (resolveConfig c).catalogDir ≠ "" ∧
      (resolveConfig c).dereferencedDir ≠ "" ∧
      (resolveConfig c).retryAttempts ≠ 0 ∧
      (resolveConfig c).retryDelay ≠ 0 ∧
      (resolveConfig c).cacheMaxSize ≠ 0 ∧
      (resolveConfig c).cacheTtl ≠ 0) := by
  have hnat : ∀ (v : Option Nat) (d : Nat), d ≠ 0 → jsOrNat v d ≠ 0 := by
    intro v d hd
    cases v with
    | none => simpa [jsOrNat] using hd
    | some n =>
      simp only [jsOrNat]
      by_cases hn : n = 0
      · simpa [hn] using hd
      · simp [hn]
  have hstr : ∀ (v : Option String) (d : String), d ≠ "" → jsOrStr v d ≠ "" := by
    intro v d hd
    cases v with
    | none => simpa [jsOrStr] using hd
    | some s =>
      simp only [jsOrStr]
      by_cases hs : s = ""
      · simpa [hs] using hd
      · simp [hs]
  refine ⟨fun c => ⟨?_, ?_, ?_, ?_, ?_, ?_⟩, fun c => ⟨?_, ?_, ?_, ?_, ?_, ?_⟩⟩
  · intro h; simp [resolveConfig, jsOrStr, h]
  · intro h; simp [resolveConfig, jsOrStr, h]
  · intro h; simp [resolveConfig, jsOrNat, h]
  · intro h; simp [resolveConfig, jsOrNat, h]
  · intro h; simp [resolveConfig, jsOrNat, h]
  · intro h; simp [resolveConfig, jsOrNat, h]
  · exact hstr _ _ (by decide)
  · exact hstr _ _ (by decide)
  · exact hnat _ _ (by decide)
  · exact hnat _ _ (by decide)
  · exact hnat _ _ (by decide)
  · exact hnat _ _ (by decide)

/-- A configuration with every defaulted field set to 0 or `""`. -/
def zeroConfig : SpecServiceConfig :=
  { basePath := "/specs", catalogDir := some "", dereferencedDir := some "",
    retryAttempts := some 0, retryDelay := some 0,
    cache := some { maxSize := some 0, ttl := some 0 } }

/-- C10 witness: the defaults are substituted on the all-zero
configuration. -/
theorem c10_witness :
    (resolveConfig zeroConfig).catalogDir = "_catalog" ∧
    (resolveConfig zeroConfig).dereferencedDir = "_dereferenced" ∧
    (resolveConfig zeroConfig).retryAttempts = 3 ∧
    (resolveConfig zeroConfig).retryDelay = 1000 ∧
    (resolveConfig zeroConfig).cacheMaxSize = 500 ∧
    (resolveConfig zeroConfig).cacheTtl = 3600000 ∧
    (resolveConfig zeroConfig).cacheMaxSize ≠ 0 := by
  have h := c10_constructor_defaults
  exact ⟨(h.1 zeroConfig).1 rfl, (h.1 zeroConfig).2.1 rfl,
    (h.1 zeroConfig).2.2.1 rfl, (h.1 zeroConfig).2.2.2.1 rfl,
    (h.1 zeroConfig).2.2.2.2.1 rfl, (h.1 zeroConfig).2.2.2.2.2 rfl,
    (h.2 zeroConfig).2.2.2.2.1⟩

/-! ### C8: findOperationByPathAndMethod -/

/-- `findOperationByPathAndMethod` rephrased through its lookup chain. -/
theorem findOperationByPathAndMethod_eq (st : ServiceState)
    (sid p m : String) :
    findOperationByPathAndMethod st sid p m =
      match lookupPathMethod st sid p m with
      | none => none
      | some v =>
        if truthy v then
          some { path := p, method := m, operation := v, specId := sid,
                 uri := "apis://" ++ sid ++ "/operations/"
                        ++ jsUndefString (opIdOf v) }
        else none := by
  cases hs : jsGet st.specs sid with
  | none =>
    simp [findOperationByPathAndMethod, lookupPathMethod, hs]
  | some spec =>
    cases hp : jsGet spec.paths p with
    | none =>
      simp [findOperationByPathAndMethod, lookupPathMethod, hs, hp]
    | some item =>
      cases hm : jsGet item m with
      | none =>
        simp [findOperationByPathAndMethod, lookupPathMethod, hs, hp, hm]
      | some v =>
        simp [findOperationByPathAndMethod, lookupPathMethod, hs, hp, hm]

/-- C8: `findOperationByPathAndMethod` matches path and method by exact,
case-sensitive string lookup against the stored document, returns `null`
on any miss, and on a hit returns a result whose `uri` equals
`apis:// + specId + /operations/ + operationId` of the matched member
(with JS interpolation of a missing `operationId`); concretely, the
stored method `get` hits while `GET` and `/Pets` miss. -/
theorem c8_find_by_path_and_method :
    (∀ (st : ServiceState) (sid p m : String) (r : LoadOperationResult),
      findOperationByPathAndMethod st sid p m = some r →
        r.path = p ∧ r.method = m ∧ r.specId = sid ∧
        lookupPathMethod st sid p m = some r.operation ∧
        r.uri = "apis://" ++ sid ++ "/operations/"
                ++ jsUndefString (opIdOf r.operation) ∧
        (∀ oid : String, opIdOf r.operation = some oid →
          r.uri = "apis://" ++ sid ++ "/operations/" ++ oid)) ∧
    (∀ (st : ServiceState) (sid p m : String),
      lookupPathMethod st sid p m = none →
        findOperationByPathAndMethod st sid p m = none) ∧
    (findOperationByPathAndMethod petState "petstore" "/pets" "get" =
      some { path := "/pets", method := "get",
             operation := .op petListOperation, specId := "petstore",
             uri := "apis://petstore/operations/listPets" }) ∧
    (findOperationByPathAndMethod petState "petstore" "/pets" "GET" = none) ∧
    (findOperationByPathAndMethod petState "petstore" "/Pets" "get" = none) := by
  refine ⟨?_, ?_, by decide, by decide, by decide⟩
  · intro st sid p m r h
    rw [findOperationByPathAndMethod_eq] at h
    cases hv : lookupPathMethod st sid p m with
    | none => simp [hv] at h
    | some v =>
      simp only [hv] at h
      by_cases ht : truthy v = true
      · simp only [ht, if_true] at h
        obtain rfl := Option.some_injective _ h
        refine ⟨rfl, rfl, rfl, rfl, rfl, ?_⟩
        intro oid hoid
        simp only [hoid, jsUndefString]
      · simp [ht] at h
  · intro st sid p m h
    rw [findOperationByPathAndMethod_eq, h]

/-- C8 witness: the characterization applied to the pet-store hit. -/
theorem c8_witness :
    lookupPathMethod petState "petstore" "/pets" "get" =
      some (.op petListOperation) ∧
    findOperationByPathAndMethod petState "petstore" "/nope" "get" = none := by
  refine ⟨?_, ?_⟩
  · exact (c8_find_by_path_and_method.1 petState "petstore" "/pets" "get"
      { path := "/pets", method := "get", operation := .op petListOperation,
        specId := "petstore", uri := "apis://petstore/operations/listPets" }
      (by decide)).2.2.2.1
  · exact c8_find_by_path_and_method.2.1 petState "petstore" "/nope" "get"
      (by decide)

/-! ### C6: point lookups return null, never throw -/

/-- The full path/method member enumeration `findOperationById` walks
(no pseudo-key skipping, in document order). -/
def allMembers (doc : Document) : List (String × String × PathItemValue) :=
  doc.paths.flatMap (fun pi => pi.2.map (fun mv => (pi.1, mv.1, mv.2)))

/-- C6: for every specId absent from the in-memory SpecStore, and for
every present specId whose document lacks the requested operation or
schema, each of `findOperationById`, `findOperationByPathAndMethod` and
`findSchemaByName` returns `null`; all three are total functions into
`Option`, so no error can be raised. -/
theorem c6_point_lookups_null :
    (∀ (st : ServiceState) (sid oid p m sn : String),
      jsGet st.specs sid = none →
        findOperationById st sid oid = none ∧
        findOperationByPathAndMethod st sid p m = none ∧
        findSchemaByName st sid sn = none) ∧
    (∀ (st : ServiceState) (sid oid : String) (doc : Document),
      jsGet st.specs sid = some doc →
      (∀ pmv ∈ allMembers doc, opIdOf pmv.2.2 ≠ some oid) →
        findOperationById st sid oid = none) ∧
    (∀ (st : ServiceState) (sid p m : String) (doc : Document),
      jsGet st.specs sid = some doc →
      (jsGet doc.paths p).bind (fun item => jsGet item m) = none →
        findOperationByPathAndMethod st sid p m = none) ∧
    (∀ (st : ServiceState) (sid sn : String) (doc : Document),
      jsGet st.specs sid = some doc →
      doc.schemas.bind (fun ss => jsGet ss sn) = none →
        findSchemaByName st sid sn = none) := by
  refine ⟨?_, ?_, ?_, ?_⟩
  · intro st sid oid p m sn h
    refine ⟨?_, ?_, ?_⟩
    · simp only [findOperationById, h]
    · simp only [findOperationByPathAndMethod, h]
    · simp only [findSchemaByName, h]
  · intro st sid oid doc hdoc hnone
    simp only [findOperationById, hdoc]
    rw [List.findSome?_eq_none_iff]
    intro pmv hmem
    have := hnone pmv (by simpa [allMembers] using hmem)
    simp [this]
  · intro st sid p m doc hdoc h
    rw [findOperationByPathAndMethod_eq]
    have hl : lookupPathMethod st sid p m = none := by
      unfold lookupPathMethod
      rw [hdoc]
      simpa using h
    rw [hl]
  · intro st sid sn doc hdoc h
    simp only [findSchemaByName, hdoc, h]

/-- C6 witness: all three lookups on an absent specId, and each
present-but-missing case, applied to the pet-store state. -/
theorem c6_witness :
    (findOperationById petState "missing" "listPets" = none ∧
     findOperationByPathAndMethod petState "missing" "/pets" "get" = none ∧
     findSchemaByName petState "missing" "Pet" = none) ∧
    findOperationById petState "petstore" "deletePet" = none ∧
    findOperationByPathAndMethod petState "petstore" "/pets" "put" = none ∧
    findSchemaByName petState "petstore" "Order" = none := by
  refine ⟨?_, ?_, ?_, ?_⟩
  · exact c6_point_lookups_null.1 petState "missing" "listPets" "/pets"
      "get" "Pet" (by decide)
  · exact c6_point_lookups_null.2.1 petState "petstore" "deletePet" petDoc
      (by decide) (by decide)
  · exact c6_point_lookups_null.2.2.1 petState "petstore" "/pets" "put"
      petDoc (by decide) (by decide)
  · exact c6_point_lookups_null.2.2.2 petState "petstore" "Order" petDoc
      (by decide) (by decide)

/-! ### Lemmas about the commit phase -/

theorem saveSpec_catalog (fs : Fs) (st : ServiceState) (now : Nat)
    (spec : Document) (specId : String) :
    (saveSpec fs st now spec specId).2.catalog = st.catalog := by
  unfold saveSpec
  by_cases hm : fs.mkdirOk = true
  · simp only [hm, if_true]
    cases fs.writeSpec specId <;> rfl
  · simp [hm]

theorem saveSpec_ok_specs (fs : Fs) (st : ServiceState) (now : Nat)
    (spec : Document) (specId : String) (u : Unit) (st1 : ServiceState)
    (h : saveSpec fs st now spec specId = (.ok u, st1)) :
    st1.specs = jsSet st.specs specId spec := by
  unfold saveSpec at h
  by_cases hm : fs.mkdirOk = true
  · simp only [hm, if_true] at h
    cases hw : fs.writeSpec specId with
    | some m =>
      simp only [hw] at h
      injection h with h1 h2
      exact Except.noConfusion h1
    | none =>
      simp only [hw] at h
      injection h with h1 h2
      rw [← h2]
  · simp [hm] at h

theorem commitPending_catalog (fs : Fs) (now : Nat)
    (pending : List (Document × SpecCatalogEntry)) :
    ∀ (st : ServiceState) (acc : List SpecCatalogEntry),
      (commitPending fs now pending st acc).2.catalog = st.catalog := by
  induction pending with
  | nil => intro st acc; rfl
  | cons pe rest ih =>
    intro st acc
    unfold commitPending
    cases hsv : saveSpec fs st now pe.1 pe.2.uri.specId with
    | mk r st1 =>
      have hcat : st1.catalog = st.catalog := by
        have hc := saveSpec_catalog fs st now pe.1 pe.2.uri.specId
        rw [hsv] at hc
        exact hc
      cases r with
      | ok u =>
        simp only []
        rw [ih st1 (acc ++ [pe.2]), hcat]
      | error e => exact hcat

theorem commitPending_allOk_fst (fs : Fs) (now : Nat)
    (h1 : fs.mkdirOk = true) (h2 : ∀ id, fs.writeSpec id = none)
    (pending : List (Document × SpecCatalogEntry)) :
    ∀ (st : ServiceState) (acc : List SpecCatalogEntry),
      (commitPending fs now pending st acc).1
        = .ok (acc ++ pending.map (fun pe => pe.2)) := by
  induction pending with
  | nil => intro st acc; simp [commitPending]
  | cons pe rest ih =>
    intro st acc
    unfold commitPending saveSpec
    simp only [h1, if_true, h2]
    rw [ih _ (acc ++ [pe.2])]
    simp

theorem commitPending_keys (fs : Fs) (now : Nat)
    (pending : List (Document × SpecCatalogEntry)) :
    ∀ (st : ServiceState) (acc temp : List SpecCatalogEntry)
      (st2 : ServiceState),
      commitPending fs now pending st acc = (.ok temp, st2) →
      (∀ e ∈ acc, (jsGet st.specs e.uri.specId).isSome = true) →
      ∀ e ∈ temp, (jsGet st2.specs e.uri.specId).isSome = true := by
  induction pending with
  | nil =>
    intro st acc temp st2 h hacc
    unfold commitPending at h
    injection h with h1 h2
    injection h1 with h1
    subst h1; subst h2
    exact hacc
  | cons pe rest ih =>
    intro st acc temp st2 h hacc
    unfold commitPending at h
    cases hsv : saveSpec fs st now pe.1 pe.2.uri.specId with
    | mk r st1 =>
      rw [hsv] at h
      cases r with
      | error e => simp at h
      | ok u =>
        simp only [] at h
        refine ih st1 (acc ++ [pe.2]) temp st2 h ?_
        intro e he
        have hspecs : st1.specs = jsSet st.specs pe.2.uri.specId pe.1 :=
          saveSpec_ok_specs fs st now pe.1 pe.2.uri.specId u st1 hsv
        rw [hspecs]
        rcases List.mem_append.mp he with hin | hin
        · exact jsGet_isSome_jsSet _ _ _ _ (hacc e hin)
        · have : e = pe.2 := by simpa using hin
          subst this
          rw [jsGet_jsSet_self]
          rfl

/-- On a failed `scanAndSave`, the error is `SCAN_ERROR` and the
in-memory catalog is exactly the one from before the call. -/
theorem scanAndSave_error (fs : Fs) (results : List ScanResult)
    (st : ServiceState) (now : Nat) (e : SpecServiceError)
    (st' : ServiceState)
    (h : scanAndSave fs results st now = (.error e, st')) :
    e.code = .SCAN_ERROR ∧ st'.catalog = st.catalog := by
  unfold scanAndSave at h
  by_cases hm : fs.mkdirOk = true
  · simp only [hm, if_true] at h
    cases hc : commitPending fs now
        ((results.filter (fun r => r.error.isNone)).map
          (fun r => (r.spec, mkEntry r))) st [] with
    | mk r st1 =>
      have hcat : st1.catalog = st.catalog := by
        have h0 := commitPending_catalog fs now
          ((results.filter (fun r => r.error.isNone)).map
            (fun r => (r.spec, mkEntry r))) st []
        rw [hc] at h0
        exact h0
      rw [hc] at h
      cases r with
      | error e0 =>
        simp only [] at h
        injection h with h1 h2
        injection h1 with h1
        subst h1; subst h2
        exact ⟨rfl, hcat⟩
      | ok temp =>
        simp only [] at h
        cases hw : fs.writeCatalog with
        | some m =>
          simp only [hw] at h
          injection h with h1 h2
          injection h1 with h1
          subst h1; subst h2
          exact ⟨rfl, hcat⟩
        | none =>
          simp only [hw] at h
          injection h with h1 h2
          exact Except.noConfusion h1
  · simp only [hm] at h
    simp only [if_false, Bool.false_eq_true] at h
    injection h with h1 h2
    injection h1 with h1
    subst h1; subst h2
    exact ⟨rfl, rfl⟩

/-- Under a fully healthy filesystem, `scanAndSave` succeeds and installs
exactly the catalog entries of the non-`error` scan results, in scan
order. -/
theorem scanAndSave_allOk (fs : Fs) (h1 : fs.mkdirOk = true)
    (h2 : ∀ id, fs.writeSpec id = none) (h3 : fs.writeCatalog = none)
    (results : List ScanResult) (st : ServiceState) (now : Nat) :
    isErr (scanAndSave fs results st now).1 = false ∧
    (scanAndSave fs results st now).2.catalog
      = (results.filter (fun r => r.error.isNone)).map mkEntry := by
  unfold scanAndSave
  simp only [h1, if_true]
  cases hc : commitPending fs now
      ((results.filter (fun r => r.error.isNone)).map
        (fun r => (r.spec, mkEntry r))) st [] with
  | mk r st1 =>
    have hfst := commitPending_allOk_fst fs now h1 h2
      ((results.filter (fun r => r.error.isNone)).map
        (fun r => (r.spec, mkEntry r))) st []
    rw [hc] at hfst
    simp only [] at hfst
    subst hfst
    simp only [h3, List.nil_append, List.map_map]
    constructor
    · rfl
    · rfl

/-! ### C1: commit-phase failure -/

/-- C1 counterexample: one scanned document, its spec write succeeds, the
catalog write fails.  The build fails with `SCAN_ERROR` — but the
in-memory SpecStore is NOT left as it was before the build: `saveSpec`
already wrote the document into `this.specs` (and the cache) before the
commit phase threw, refuting the no-partial-swap claim for the
SpecStore. -/
theorem c1_counterexample :
    errCode (scanAndSave catalogWriteFailFs [abScan] emptyState 0).1
      = some .SCAN_ERROR ∧
    (scanAndSave catalogWriteFailFs [abScan] emptyState 0).2.specs
      = [("s", abDoc)] ∧
    emptyState.specs = [] ∧
    (scanAndSave catalogWriteFailFs [abScan] emptyState 0).2.specs
      ≠ emptyState.specs := by
  refine ⟨by decide, by decide, rfl, by decide⟩

/-- C1 (amended): for every build whose commit phase throws, the build
fails with `SCAN_ERROR` and the previously-committed in-memory Catalog is
left exactly as it was before the build started; the in-memory SpecStore
and cache, however, may retain documents written by `saveSpec` calls that
completed before the failure. -/
theorem c1_commit_failure_scan_error (fs : Fs) (results : List ScanResult)
    (st : ServiceState) (now : Nat) (e : SpecServiceError)
    (st' : ServiceState)
    (h : scanAndSave fs results st now = (.error e, st')) :
    e.code = .SCAN_ERROR ∧ st'.catalog = st.catalog :=
  scanAndSave_error fs results st now e st' h

/-- C1 witness: the amended theorem applied to the catalog-write-failure
run. -/
theorem c1_witness :
    ((scanAndSave catalogWriteFailFs [abScan] emptyState 0).1.isOk
        = false) ∧
    (scanAndSave catalogWriteFailFs [abScan] emptyState 0).2.catalog
      = emptyState.catalog := by
  refine ⟨by decide, ?_⟩
  exact (c1_commit_failure_scan_error catalogWriteFailFs [abScan]
    emptyState 0
    ⟨"Failed to scan and persist specifications", .SCAN_ERROR,
      some "disk full"⟩
    (scanAndSave catalogWriteFailFs [abScan] emptyState 0).2
    rfl).2

/-! ### C7: error entries are skipped, never fatal -/

/-- C7: every scanned entry with `error` set is skipped without aborting
the build: under a healthy filesystem the build always succeeds and its
catalog consists of exactly the non-error results' entries; concretely, a
build over three documents of which one has `error` set yields a catalog
of exactly 2 entries, and the failing document is in neither the Catalog
nor the SpecStore. -/
theorem c7_error_entries_skipped :
    (∀ (fs : Fs) (results : List ScanResult) (st : ServiceState)
       (now : Nat),
      fs.mkdirOk = true → (∀ id, fs.writeSpec id = none) →
      fs.writeCatalog = none →
        isErr (scanAndSave fs results st now).1 = false ∧
        (scanAndSave fs results st now).2.catalog
          = (results.filter (fun r => r.error.isNone)).map mkEntry) ∧
    ((scanAndSave allOkFs [petScan, badScan, thirdScan] emptyState 0).1.isOk
      = true) ∧
    (scanAndSave allOkFs [petScan, badScan, thirdScan]
       emptyState 0).2.catalog.length = 2 ∧
    ((scanAndSave allOkFs [petScan, badScan, thirdScan]
       emptyState 0).2.catalog.map (fun en => en.uri.specId)
      = ["petstore", "orders"]) ∧
    (jsGet (scanAndSave allOkFs [petScan, badScan, thirdScan]
       emptyState 0).2.specs "broken" = none) := by
  refine ⟨?_, by decide, by decide, by decide, by decide⟩
  intro fs results st now h1 h2 h3
  exact scanAndSave_allOk fs h1 h2 h3 results st now

/-- C7 witness: the general part applied to the three-document run. -/
theorem c7_witness :
    isErr (scanAndSave allOkFs [petScan, badScan, thirdScan]
      emptyState 0).1 = false ∧
    (scanAndSave allOkFs [petScan, badScan, thirdScan]
       emptyState 0).2.catalog
      = ([petScan, badScan, thirdScan].filter
          (fun r => r.error.isNone)).map mkEntry := by
  exact c7_error_entries_skipped.1 allOkFs [petScan, badScan, thirdScan]
    emptyState 0 rfl (fun _ => rfl) rfl

/-! ### C2: build failure resets the engine -/

/-- Every query answers over the empty state when specs and catalog are
empty. -/
theorem queries_on_empty (st : ServiceState) (hs : st.specs = [])
    (hc : st.catalog = []) :
    (∀ sid oid, findOperationById st sid oid = none) ∧
    (∀ sid p m, findOperationByPathAndMethod st sid p m = none) ∧
    (∀ sid sn, findSchemaByName st sid sn = none) ∧
    (∀ q sid, searchOperations q sid st = []) ∧
    (∀ q sid, searchSchemas q sid st = []) := by
  refine ⟨?_, ?_, ?_, ?_, ?_⟩
  · intro sid oid; simp [findOperationById, jsGet, hs]
  · intro sid p m; simp [findOperationByPathAndMethod, jsGet, hs]
  · intro sid sn; simp [findSchemaByName, jsGet, hs]
  · intro q sid
    cases sid with
    | none => simp [searchOperations, targetSpecs, hc]
    | some s => simp [searchOperations, targetSpecs, hc]
  · intro q sid
    cases sid with
    | none => simp [searchSchemas, schemaCandidates, targetSpecs, hc, rankSort]
    | some s => simp [searchSchemas, schemaCandidates, targetSpecs, hc, rankSort]

/-- A failed `initialize` raises `INIT_ERROR` and leaves the state fully
reset. -/
theorem initializeService_error_reset (fs : Fs)
    (results : List ScanResult) (st : ServiceState) (now : Nat)
    (e : SpecServiceError) (st' : ServiceState)
    (h : initializeService fs results st now = (.error e, st')) :
    e.code = .INIT_ERROR ∧ st'.specs = [] ∧ st'.catalog = [] ∧
    st'.cache.entries = [] := by
  unfold initializeService at h
  by_cases hm : fs.mkdirOk = true
  · simp only [hm, if_true] at h
    cases hsc : scanAndSave fs results (loadExistingCatalog fs st now).2 now with
    | mk r st2 =>
      rw [hsc] at h
      cases r with
      | ok u =>
        simp only [] at h
        injection h with h1 h2
        exact Except.noConfusion h1
      | error e0 =>
        simp only [] at h
        injection h with h1 h2
        injection h1 with h1
        subst h1; subst h2
        exact ⟨rfl, rfl, rfl, rfl⟩
  · simp only [hm] at h
    simp only [if_false, Bool.false_eq_true] at h
    injection h with h1 h2
    injection h1 with h1
    subst h1; subst h2
    exact ⟨rfl, rfl, rfl, rfl⟩

/-- C2: whenever `initialize` (and hence `refresh`) fails, the state is
reset to empty — empty Catalog, empty SpecStore, cleared Cache — the
raised error carries `INIT_ERROR`, and the engine stays queryable,
answering every query over the empty state; moreover a failing
`scanAndSave` always makes `initialize` fail, and a `refresh` with a
usable folder path is exactly `initialize`. -/
theorem c2_build_failure_resets :
    (∀ (fs : Fs) (results : List ScanResult) (st : ServiceState)
       (now : Nat) (e : SpecServiceError) (st' : ServiceState),
      initializeService fs results st now = (.error e, st') →
        e.code = .INIT_ERROR ∧ st'.specs = [] ∧ st'.catalog = [] ∧
        st'.cache.entries = [] ∧ getApiCatalog st' = [] ∧
        (∀ sid oid, findOperationById st' sid oid = none) ∧
        (∀ sid p m, findOperationByPathAndMethod st' sid p m = none) ∧
        (∀ sid sn, findSchemaByName st' sid sn = none) ∧
        (∀ q sid, searchOperations q sid st' = []) ∧
        (∀ q sid, searchSchemas q sid st' = [])) ∧
    (∀ (fs : Fs) (results : List ScanResult) (st : ServiceState)
       (now : Nat),
      fs.mkdirOk = true →
      isErr (scanAndSave fs results (loadExistingCatalog fs st now).2 now).1
        = true →
      isErr (initializeService fs results st now).1 = true) ∧
    (∀ (fp : String) (fs : Fs) (results : List ScanResult)
       (st : ServiceState) (now : Nat), fp ≠ "" →
      refresh fp fs results st now
        = (.ran (initializeService fs results st now).1,
           (initializeService fs results st now).2)) := by
  refine ⟨?_, ?_, ?_⟩
  · intro fs results st now e st' h
    obtain ⟨hcode, hs, hc, hent⟩ :=
      initializeService_error_reset fs results st now e st' h
    obtain ⟨q1, q2, q3, q4, q5⟩ := queries_on_empty st' hs hc
    exact ⟨hcode, hs, hc, hent, by simpa [getApiCatalog] using hc,
      q1, q2, q3, q4, q5⟩
  · intro fs results st now hm herr
    unfold initializeService
    simp only [hm, if_true]
    cases hsc : scanAndSave fs results (loadExistingCatalog fs st now).2 now with
    | mk r st2 =>
      cases r with
      | ok u => rw [hsc] at herr; simp [isErr] at herr
      | error e0 => rfl
  · intro fp fs results st now hfp
    unfold refresh
    have hb : (fp == "") = false := beq_eq_false_iff_ne.mpr hfp
    simp only [hb]
    cases hi : initializeService fs results st now with
    | mk r st1 => rfl

/-- C2 witness: the reset, error code and empty-state queries on a
concrete failed build (the catalog write fails). -/
theorem c2_witness :
    ({ message := "Failed to initialize FileSystemSpecService",
       code := .INIT_ERROR,
       cause := some "Failed to scan and persist specifications" }
        : SpecServiceError).code = .INIT_ERROR ∧
    (initializeService catalogWriteFailFs [abScan] emptyState 0).2.specs
      = [] ∧
    (initializeService catalogWriteFailFs [abScan] emptyState 0).2.catalog
      = [] ∧
    getApiCatalog
      (initializeService catalogWriteFailFs [abScan] emptyState 0).2 = [] ∧
    findOperationById
      (initializeService catalogWriteFailFs [abScan] emptyState 0).2
      "s" "a" = none ∧
    searchOperations "a" none
      (initializeService catalogWriteFailFs [abScan] emptyState 0).2
      = [] := by
  have h := c2_build_failure_resets.1 catalogWriteFailFs [abScan]
    emptyState 0
    { message := "Failed to initialize FileSystemSpecService",
      code := .INIT_ERROR,
      cause := some "Failed to scan and persist specifications" }
    (initializeService catalogWriteFailFs [abScan] emptyState 0).2 rfl
  exact ⟨h.1, h.2.1, h.2.2.1, h.2.2.2.2.1, h.2.2.2.2.2.1 "s" "a",
    h.2.2.2.2.2.2.2.2.1 "a" none⟩

/-! ### C3: catalog-to-store correspondence after a successful build -/

/-- After a successful `scanAndSave`, every installed catalog entry's
specId is a key of the in-memory spec store. -/
theorem scanAndSave_ok_keys (fs : Fs) (results : List ScanResult)
    (st : ServiceState) (now : Nat) (st2 : ServiceState)
    (h : scanAndSave fs results st now = (.ok (), st2)) :
    ∀ e ∈ st2.catalog, (jsGet st2.specs e.uri.specId).isSome = true := by
  unfold scanAndSave at h
  by_cases hm : fs.mkdirOk = true
  · simp only [hm, if_true] at h
    cases hc : commitPending fs now
        ((results.filter (fun r => r.error.isNone)).map
          (fun r => (r.spec, mkEntry r))) st [] with
    | mk r st1 =>
      rw [hc] at h
      cases r with
      | error e0 =>
        simp only [] at h
        injection h with h1 h2
        exact Except.noConfusion h1
      | ok temp =>
        simp only [] at h
        cases hw : fs.writeCatalog with
        | some m =>
          simp only [hw] at h
          injection h with h1 h2
          exact Except.noConfusion h1
        | none =>
          simp only [hw] at h
          injection h with h1 h2
          subst h2
          intro e he
          exact commitPending_keys fs now
            ((results.filter (fun r => r.error.isNone)).map
              (fun r => (r.spec, mkEntry r))) st [] temp st1 hc
            (by simp) e he
  · simp only [hm] at h
    simp only [if_false, Bool.false_eq_true] at h
    injection h with h1 h2
    exact Except.noConfusion h1

/-- C3 counterexample: a successful build over a scan yielding only
`petstore`, on a filesystem whose persisted catalog already held `prev`.
The build succeeds, its Catalog has 1 entry, but the SpecStore has 2 —
the stale `prev` document loaded by `loadExistingCatalog` is never
evicted, refuting the claimed one-to-one correspondence in exactly the
absent-from-current-scan case. -/
theorem c3_counterexample :
    (initializeService stalePrevFs [petScan] emptyState 0).1.isOk = true ∧
    (initializeService stalePrevFs [petScan]
       emptyState 0).2.catalog.length = 1 ∧
    (initializeService stalePrevFs [petScan]
       emptyState 0).2.specs.length = 2 ∧
    (jsGet (initializeService stalePrevFs [petScan]
       emptyState 0).2.specs "prev").isSome = true ∧
    ((initializeService stalePrevFs [petScan]
       emptyState 0).2.catalog.map (fun en => en.uri.specId))
      = ["petstore"] := by
  refine ⟨by decide, by decide, by decide, by decide, by decide⟩

/-- C3 (amended): after every successful build, every CatalogEntry's
SpecId maps to a stored document in the SpecStore; the SpecStore may
additionally retain documents whose SpecIds were present in a previous
build or in the previously persisted catalog but are absent from the
current scan, so the correspondence need not be one-to-one. -/
theorem c3_catalog_subset_store (fs : Fs) (results : List ScanResult)
    (st : ServiceState) (now : Nat) (st' : ServiceState)
    (h : initializeService fs results st now = (.ok (), st')) :
    ∀ entry ∈ st'.catalog,
      (jsGet st'.specs entry.uri.specId).isSome = true := by
  intro entry he
  unfold initializeService at h
  by_cases hm : fs.mkdirOk = true
  · simp only [hm, if_true] at h
    cases hsc : scanAndSave fs results (loadExistingCatalog fs st now).2 now with
    | mk r st2 =>
      rw [hsc] at h
      cases r with
      | error e0 =>
        simp only [] at h
        injection h with h1 h2
        exact Except.noConfusion h1
      | ok u =>
        simp only [] at h
        injection h with h1 h2
        subst h2
        cases u
        exact scanAndSave_ok_keys fs results
          (loadExistingCatalog fs st now).2 now st2 hsc entry he
  · simp only [hm] at h
    simp only [if_false, Bool.false_eq_true] at h
    injection h with h1 h2
    exact Except.noConfusion h1

/-- C3 witness: the amended theorem applied to the stale-`prev` run. -/
theorem c3_witness :
    (jsGet (initializeService stalePrevFs [petScan]
       emptyState 0).2.specs "petstore").isSome = true := by
  exact c3_catalog_subset_store stalePrevFs [petScan] emptyState 0
    (initializeService stalePrevFs [petScan] emptyState 0).2 rfl
    (mkEntry petScan) (by decide)

/-! ### C4: loadSpec cache semantics -/

/-- The error cause, if the result is an error. -/
def errCause {α : Type} : Except SpecServiceError α → Option (Option String)
  | .error e => some e.cause
  | .ok _ => none

theorem cache_find_new (l : List CacheEntry) (k : String) (v : Document)
    (now : Nat) (hl : ∀ e ∈ l, (e.key == k) = false) :
    (l ++ [CacheEntry.mk k v now]).find? (fun e => e.key == k)
      = some (CacheEntry.mk k v now) := by
  rw [List.find?_append]
  have h1 : l.find? (fun e => e.key == k) = none := by
    rw [List.find?_eq_none]
    intro x hx
    simp [hl x hx]
  rw [h1]
  simp [List.find?]

/-- A freshly inserted entry is found by `get` while its TTL has not
elapsed, provided the capacity admits at least one entry. -/
theorem SimpleCache.get_set_self (c : SimpleCache) (now t' : Nat)
    (k : String) (v : Document) (hcap : 1 ≤ c.maxSize)
    (httl : t' - now ≤ c.ttl) :
    (c.set now k v).get t' k = some v := by
  have hfilter : ∀ e ∈ c.entries.filter (fun e => !(e.key == k)),
      (e.key == k) = false := by
    intro e he
    have := List.of_mem_filter he
    simpa using this
  unfold SimpleCache.set SimpleCache.get
  simp only []
  by_cases hlen : (c.entries.filter (fun e => !(e.key == k))
      ++ [CacheEntry.mk k v now]).length > c.maxSize
  · rw [if_pos hlen]
    have hn : (c.entries.filter (fun e => !(e.key == k))
        ++ [CacheEntry.mk k v now]).length - c.maxSize
        ≤ (c.entries.filter (fun e => !(e.key == k))).length := by
      simp only [List.length_append, List.length_cons, List.length_nil]
      omega
    rw [List.drop_append_of_le_length hn]
    rw [cache_find_new _ _ _ _
      (fun e he => hfilter e (List.mem_of_mem_drop he))]
    simp only []
    rw [if_neg (by omega)]
  · rw [if_neg hlen]
    rw [cache_find_new _ _ _ _ hfilter]
    simp only []
    rw [if_neg (by omega)]

/-- C4: `loadSpec` checks the Cache first and returns the cached document
on a hit with no storage read; on a miss it reads storage, populates the
Cache and returns the document; a never-persisted document raises
`LOAD_ERROR` without a cause, any other storage failure raises
`LOAD_ERROR` with the underlying cause; and after a miss-then-read at
time `t`, a second call at any `t'` within the TTL returns the
structurally equal document from the Cache with no storage read. -/
theorem c4_load_spec_cache :
    (∀ (fs : Fs) (cache : SimpleCache) (now : Nat) (id : String)
       (d : Document),
      cache.get now id = some d →
        loadSpec fs cache now id = (.ok d, cache, 0)) ∧
    (∀ (fs : Fs) (cache : SimpleCache) (now : Nat) (id : String)
       (d : Document),
      cache.get now id = none → fs.readSpecFile id = .ok d →
        loadSpec fs cache now id = (.ok d, cache.set now id d, 1)) ∧
    (∀ (fs : Fs) (cache : SimpleCache) (now : Nat) (id : String),
      cache.get now id = none → fs.readSpecFile id = .notFound →
        errCode (loadSpec fs cache now id).1 = some .LOAD_ERROR ∧
        errCause (loadSpec fs cache now id).1 = some none ∧
        (loadSpec fs cache now id).2.2 = 1) ∧
    (∀ (fs : Fs) (cache : SimpleCache) (now : Nat) (id m : String),
      cache.get now id = none → fs.readSpecFile id = .failure m →
        errCode (loadSpec fs cache now id).1 = some .LOAD_ERROR ∧
        errCause (loadSpec fs cache now id).1 = some (some m) ∧
        (loadSpec fs cache now id).2.2 = 1) ∧
    (∀ (fs : Fs) (cache : SimpleCache) (t t' : Nat) (id : String)
       (d : Document),
      1 ≤ cache.maxSize → cache.get t id = none →
      fs.readSpecFile id = .ok d → t' - t ≤ cache.ttl →
        loadSpec fs cache t id = (.ok d, cache.set t id d, 1) ∧
        loadSpec fs (cache.set t id d) t' id
          = (.ok d, cache.set t id d, 0)) := by
  refine ⟨?_, ?_, ?_, ?_, ?_⟩
  · intro fs cache now id d h
    simp [loadSpec, h]
  · intro fs cache now id d h hr
    simp [loadSpec, h, hr]
  · intro fs cache now id h hr
    simp [loadSpec, h, hr, errCode, errCause]
  · intro fs cache now id m h hr
    simp [loadSpec, h, hr, errCode, errCause]
  · intro fs cache t t' id d hcap h hr httl
    constructor
    · simp [loadSpec, h, hr]
    · have hget := SimpleCache.get_set_self cache t t' id d hcap httl
      simp [loadSpec, hget]

/-- A filesystem that can read the `ab` document under specId `s`. -/
def loadFs : Fs :=
  { allOkFs with
    readSpecFile := fun id => if id == "s" then .ok abDoc else .notFound }

/-- C4 witness: a concrete miss-then-hit pair of calls within the TTL:
the first reads storage once and populates the cache, the second is
served from the cache with zero storage reads and returns the same
document. -/
theorem c4_witness :
    loadSpec loadFs emptyCache 0 "s" = (.ok abDoc, emptyCache.set 0 "s" abDoc, 1) ∧
    loadSpec loadFs (emptyCache.set 0 "s" abDoc) 1000 "s"
      = (.ok abDoc, emptyCache.set 0 "s" abDoc, 0) := by
  exact c4_load_spec_cache.2.2.2.2 loadFs emptyCache 0 1000 "s" abDoc
    (by decide) (by decide) rfl (by decide)

/-! ### C5: searchOperations as a filtered enumeration -/

theorem searchOps_item_eq (q sid p : String) (item : PathItem) :
    (item.flatMap (fun mv =>
      if mv.1 == "parameters" || mv.1 == "$ref" then []
      else if !(truthy mv.2) then []
      else if strContains (corpusOf mv.2) (jsToLower q) then
        [mkOpResult sid p mv.1 mv.2]
      else []))
    = ((item.filterMap (fun mv =>
          if mv.1 == "parameters" || mv.1 == "$ref" then none
          else if !(truthy mv.2) then none
          else some (p, mv.1, mv.2))).filter
        (fun pmv => strContains (corpusOf pmv.2.2) (jsToLower q))).map
      (fun pmv => mkOpResult sid pmv.1 pmv.2.1 pmv.2.2) := by
  induction item with
  | nil => rfl
  | cons mv rest ih =>
    simp only [List.flatMap_cons, List.filterMap_cons]
    by_cases h1 : (mv.1 == "parameters" || mv.1 == "$ref") = true
    · rw [if_pos h1, if_pos h1]
      exact ih
    · rw [if_neg h1, if_neg h1]
      by_cases h2 : (!(truthy mv.2)) = true
      · rw [if_pos h2, if_pos h2]
        exact ih
      · rw [if_neg h2, if_neg h2]
        by_cases h3 : strContains (corpusOf mv.2) (jsToLower q) = true
        · rw [if_pos h3]
          simp only [List.filter_cons, h3, if_true, List.map_cons,
            List.singleton_append]
          rw [ih]
        · rw [if_neg h3]
          have h3' : strContains (corpusOf mv.2) (jsToLower q) = false :=
            Bool.eq_false_iff.mpr h3
          simp only [List.filter_cons, h3', Bool.false_eq_true, if_false,
            List.nil_append]
          exact ih

theorem searchOps_doc_eq (q sid : String) (doc : Document) :
    (doc.paths.flatMap (fun pi =>
      pi.2.flatMap (fun mv =>
        if mv.1 == "parameters" || mv.1 == "$ref" then []
        else if !(truthy mv.2) then []
        else if strContains (corpusOf mv.2) (jsToLower q) then
          [mkOpResult sid pi.1 mv.1 mv.2]
        else [])))
    = ((enumeratedOps doc).filter
        (fun pmv => strContains (corpusOf pmv.2.2) (jsToLower q))).map
      (fun pmv => mkOpResult sid pmv.1 pmv.2.1 pmv.2.2) := by
  unfold enumeratedOps
  induction doc.paths with
  | nil => rfl
  | cons pi rest ih =>
    simp only [List.flatMap_cons, List.filter_append, List.map_append]
    rw [searchOps_item_eq, ih]

/-- C5 (amended): `searchOperations` returns exactly the in-scope
operations whose corpus — the space-separated join of `operationId`,
`summary`, `description` and the tags, omitting absent and empty fields —
contains the query as a substring after case-folding both sides; within
one document matches keep the document's own path/method enumeration
order, and matches from multiple specs are concatenated in catalog order
with no interleaving or ranking.  Concretely, `searchOperations "pet"`
finds `createPet` and `searchOperations "PET"` returns the same list. -/
theorem c5_search_operations :
    (∀ (q : String) (sid : Option String) (st : ServiceState),
      searchOperations q sid st = specSearchOperations q sid st) ∧
    (searchOperations "pet" none petState
      = searchOperations "PET" none petState) ∧
    (mkOpResult "petstore" "/pets" "post" (.op petCreateOperation)
      ∈ searchOperations "pet" none petState) ∧
    (searchOperations "pet" none petState
      = [mkOpResult "petstore" "/pets" "get" (.op petListOperation),
         mkOpResult "petstore" "/pets" "post" (.op petCreateOperation)]) := by
  refine ⟨?_, by decide, by decide, by decide⟩
  intro q sid st
  unfold searchOperations specSearchOperations
  have hfg : ∀ entry : SpecCatalogEntry,
      (match jsGet st.specs entry.uri.specId with
       | none => []
       | some doc =>
         doc.paths.flatMap (fun pi =>
           pi.2.flatMap (fun mv =>
             if mv.1 == "parameters" || mv.1 == "$ref" then []
             else if !(truthy mv.2) then []
             else if strContains (corpusOf mv.2) (jsToLower q) then
               [mkOpResult entry.uri.specId pi.1 mv.1 mv.2]
             else [])))
      = (match jsGet st.specs entry.uri.specId with
         | none => []
         | some doc =>
           ((enumeratedOps doc).filter
               (fun pmv => strContains (corpusOf pmv.2.2) (jsToLower q))).map
             (fun pmv =>
               mkOpResult entry.uri.specId pmv.1 pmv.2.1 pmv.2.2)) := by
    intro entry
    cases jsGet st.specs entry.uri.specId with
    | none => rfl
    | some doc => exact searchOps_doc_eq q entry.uri.specId doc
  exact List.flatMap_congr (fun entry _ => hfg entry)

/-- C5 counterexample: the claim reads the corpus as the plain
concatenation of the fields.  For an operation with `operationId "a"` and
`summary "b"` that concatenation is `"ab"` and contains the query `"ab"`,
yet `searchOperations "ab"` returns nothing, because the code joins the
fields with spaces (`"a b"`). -/
theorem c5_counterexample :
    claimConcatCorpus (.op abOperation) = "ab" ∧
    strContains (jsToLower (claimConcatCorpus (.op abOperation)))
      (jsToLower "ab") = true ∧
    enumeratedOps abDoc = [("/x", "get", .op abOperation)] ∧
    (getApiCatalog abState).length = 1 ∧
    jsGet abState.specs "s" = some abDoc ∧
    corpusOf (.op abOperation) = "a b" ∧
    searchOperations "ab" none abState = [] := by
  refine ⟨by decide, by decide, by decide, by decide, by decide,
    by decide, by decide⟩

/-! ### C9: searchSchemas fuzzy ranking -/

theorem scoreLe_of_scoreLt {a b : FuzzyScore} (h : scoreLt a b) :
    scoreLe a b :=
  Nat.le_of_lt h

theorem scoreLe_of_not_scoreLt {a b : FuzzyScore} (h : ¬ scoreLt a b) :
    scoreLe b a :=
  Nat.le_of_not_lt h

theorem scoreLe_trans {a b c : FuzzyScore} (hb : 0 < b.den)
    (h1 : scoreLe a b) (h2 : scoreLe b c) : scoreLe a c := by
  unfold scoreLe at h1 h2 ⊢
  have hmain : a.num * c.den * b.den ≤ c.num * a.den * b.den := by
    calc a.num * c.den * b.den = a.num * b.den * c.den := by ring
    _ ≤ b.num * a.den * c.den := Nat.mul_le_mul_right c.den h1
    _ = b.num * c.den * a.den := by ring
    _ ≤ c.num * b.den * a.den := Nat.mul_le_mul_right a.den h2
    _ = c.num * a.den * b.den := by ring
  exact Nat.le_of_mul_le_mul_right hmain hb

theorem similarity_den_pos (q s : String) : 0 < (similarity q s).den := by
  have h : (similarity q s).den = max 1 (max q.length s.length) := rfl
  rw [h]
  exact Nat.lt_of_lt_of_le Nat.one_pos (Nat.le_max_left _ _)

theorem schemaScore_den_pos (q : String) (c : SchemaCandidate) :
    0 < (schemaScore q c).den := by
  cases hd : c.description with
  | none =>
    simp only [schemaScore, hd]
    exact similarity_den_pos q c.name
  | some ds =>
    simp only [schemaScore, hd]
    by_cases h : scoreLt (similarity q c.name) (similarity q ds)
    · rw [if_pos h]; exact similarity_den_pos q ds
    · rw [if_neg h]; exact similarity_den_pos q c.name

theorem mem_insertRanked (f : SchemaCandidate → FuzzyScore)
    (c x : SchemaCandidate) (l : List SchemaCandidate) :
    x ∈ insertRanked f c l ↔ x = c ∨ x ∈ l := by
  induction l with
  | nil => simp [insertRanked]
  | cons d ds ih =>
    simp only [insertRanked]
    by_cases hd : scoreLt (f d) (f c)
    · rw [if_pos hd]
      simp [List.mem_cons]
    · rw [if_neg hd]
      simp only [List.mem_cons, ih]
      tauto

theorem pairwise_insertRanked (f : SchemaCandidate → FuzzyScore)
    (hf : ∀ x, 0 < (f x).den) (c : SchemaCandidate)
    (l : List SchemaCandidate)
    (h : l.Pairwise (fun a b => scoreLe (f b) (f a))) :
    (insertRanked f c l).Pairwise (fun a b => scoreLe (f b) (f a)) := by
  induction l with
  | nil => simp [insertRanked]
  | cons d ds ih =>
    simp only [insertRanked]
    rw [List.pairwise_cons] at h
    by_cases hd : scoreLt (f d) (f c)
    · rw [if_pos hd]
      refine List.Pairwise.cons ?_ (List.Pairwise.cons h.1 h.2)
      intro x hx
      rcases List.mem_cons.mp hx with rfl | hx
      · exact scoreLe_of_scoreLt hd
      · exact scoreLe_trans (hf d) (h.1 x hx) (scoreLe_of_scoreLt hd)
    · rw [if_neg hd]
      refine List.Pairwise.cons ?_ (ih h.2)
      intro x hx
      rcases (mem_insertRanked f c x ds).mp hx with rfl | hx
      · exact scoreLe_of_not_scoreLt hd
      · exact h.1 x hx

theorem mem_rankSort (f : SchemaCandidate → FuzzyScore)
    (x : SchemaCandidate) (l : List SchemaCandidate) :
    x ∈ rankSort f l ↔ x ∈ l := by
  induction l with
  | nil => simp [rankSort]
  | cons c cs ih =>
    simp only [rankSort, mem_insertRanked, List.mem_cons, ih]

theorem pairwise_rankSort (f : SchemaCandidate → FuzzyScore)
    (hf : ∀ x, 0 < (f x).den) (l : List SchemaCandidate) :
    (rankSort f l).Pairwise (fun a b => scoreLe (f b) (f a)) := by
  induction l with
  | nil => simp [rankSort]
  | cons c cs ih => exact pairwise_insertRanked f hf c (rankSort f cs) ih

/-- C9: `searchSchemas` builds its candidates (each annotated with the
originating specId) over the same scoping rule as `searchOperations`
(shared `targetSpecs`), keeps exactly the candidates whose fuzzy
similarity score over the `name`/`description` fields reaches the fixed
threshold, returns them ordered best-match-first, and concretely the
query `Ussr` over schemas `User` and `Order` returns `User` and excludes
`Order`.  The fuzzy matcher itself is modelled from the spec, the Fuse.js
library not being part of this repository. -/
theorem c9_search_schemas :
    (∀ (q : String) (sid : Option String) (st : ServiceState)
       (c : SchemaCandidate),
      c ∈ searchSchemas q sid st →
        schemaThresholdLe (schemaScore q c) ∧
        c ∈ schemaCandidates sid st) ∧
    (∀ (q : String) (sid : Option String) (st : ServiceState)
       (c : SchemaCandidate),
      c ∈ schemaCandidates sid st → schemaThresholdLe (schemaScore q c) →
        c ∈ searchSchemas q sid st) ∧
    (∀ (q : String) (sid : Option String) (st : ServiceState),
      (searchSchemas q sid st).Pairwise
        (fun a b => scoreLe (schemaScore q b) (schemaScore q a))) ∧
    (searchSchemas "Ussr" none userOrderState
      = [{ name := "User", description := none, specId := "s" }]) ∧
    (schemaThresholdLe (schemaScore "Ussr"
      { name := "User", description := none, specId := "s" })) ∧
    (¬ schemaThresholdLe (schemaScore "Ussr"
      { name := "Order", description := none, specId := "s" })) := by
  refine ⟨?_, ?_, ?_, by decide, by decide, by decide⟩
  · intro q sid st c hc
    unfold searchSchemas at hc
    rw [mem_rankSort] at hc
    have h1 := List.mem_filter.mp hc
    exact ⟨of_decide_eq_true h1.2, h1.1⟩
  · intro q sid st c hc hs
    unfold searchSchemas
    rw [mem_rankSort]
    exact List.mem_filter.mpr ⟨hc, decide_eq_true hs⟩
  · intro q sid st
    unfold searchSchemas
    exact pairwise_rankSort _ (fun x => schemaScore_den_pos q x) _

/-- C9 witness: both directions of the threshold gate applied to the
`User` candidate of the `Ussr` query. -/
theorem c9_witness :
    schemaThresholdLe (schemaScore "Ussr"
      { name := "User", description := none, specId := "s" }) ∧
    ({ name := "User", description := none, specId := "s" }
        : SchemaCandidate) ∈ schemaCandidates none userOrderState ∧
    ({ name := "User", description := none, specId := "s" }
        : SchemaCandidate) ∈ searchSchemas "Ussr" none userOrderState := by
  have h1 := c9_search_schemas.1 "Ussr" none userOrderState
    { name := "User", description := none, specId := "s" } (by decide)
  have h2 := c9_search_schemas.2.1 "Ussr" none userOrderState
    { name := "User", description := none, specId := "s" } h1.2 h1.1
  exact ⟨h1.1, h1.2, h2⟩


end MO
